import Mathlib

/-!
Verification of the deterministic flag-evaluation engine of
`rust-feature-flags-toggler` (`src/main.rs`).

The evaluation core is `eval_flag` (main.rs lines 189-204) together with the
byte-extraction helper `hk` (line 206).  We embed it shallowly:

* `Flag` mirrors the Rust `Flag` struct.  The Rust field
  `variants : Option<HashMap<String, u32>>` is embedded as
  `Option (List (String × Nat))`: the list records the `(name, weight)`
  pairs in the order in which `vs.iter()` yields them, since the Rust code
  consumes the map only through its (unspecified, per-process) iterator
  order.  Weights are `u32` values, embedded as `Nat`; every arithmetic
  step that Rust performs on `u32` is reduced modulo `2 ^ 32`.
* The blake3 digests are supplied by an external crate, not by this
  repository, so they are parameters of the embedding:
  `gb key uid` stands for the first byte of `blake3(key ++ ":" ++ uid)`
  (the gate digest, a value in [0, 255]) and `vw key uid` stands for the
  first four bytes of `blake3(key ++ "/" ++ uid)` read as an unsigned
  32-bit little-endian integer (the variant digest via `hk`).  Every
  theorem quantifies over these functions, so each result holds for the
  actual blake3 instantiation.
-/

namespace Toggler

/-- The modulus `2 ^ 32` of Rust `u32` arithmetic. -/
def UINT32_MOD : Nat := 4294967296

/-- The Rust `Flag` record (main.rs lines 15-23). -/
structure Flag where
  id : Int
  key : String
  enabled : Bool
  variants : Option (List (String × Nat))
  rollout : Option Nat
  updated_at : String
deriving DecidableEq

/-- The Rust `EvalResponse` record (main.rs lines 46-51). -/
structure EvalResponse where
  key : String
  matched : Bool
  variant : Option String
deriving DecidableEq

/-- The gate computation bound to `gate` inside `eval_flag`
(main.rs lines 190-193): `None` rollout always passes, a present rollout
with no identifier fails, and otherwise the first byte of the gate digest
reduced modulo 100 is compared with the rollout percentage. -/
def gate_of (gb : String → String → Nat) (flag : Flag)
    (user_id : Option String) : Bool :=
  match flag.rollout with
  | none => true
  | some p =>
    match user_id with
    | none => false
    | some uid => decide (gb flag.key uid % 100 < p)

/-- The variant loop of `eval_flag` (main.rs line 200): walk the entries in
iteration order, accumulating weights with `u32` wrap-around, and return
the first name whose accumulated weight strictly exceeds `pick`; `none`
when the loop falls through. -/
def walk : List (String × Nat) → Nat → Nat → Option String
  | [], _, _ => none
  | (name, weight) :: rest, pick, acc =>
    let acc2 := (acc + weight) % UINT32_MOD
    if pick < acc2 then some name else walk rest pick acc2

/-- Transcription of `eval_flag` (main.rs lines 189-204).  `vw` already
incorporates `hk` (line 206): it is the little-endian `u32` built from
the first four bytes of the variant digest. -/
def eval_flag (gb vw : String → String → Nat) (flag : Flag)
    (user_id : Option String) : EvalResponse :=
  let gate := gate_of gb flag user_id
  if !flag.enabled || !gate then
    { key := flag.key, matched := false, variant := none }
  else
    match flag.variants with
    | some vs =>
      let total := (vs.map Prod.snd).sum % UINT32_MOD
      if total = 0 then
        { key := flag.key, matched := true, variant := none }
      else
        let pick :=
          match user_id with
          | none => 0
          | some uid => vw flag.key uid % total
        match walk vs pick 0 with
        | some name => { key := flag.key, matched := true, variant := some name }
        | none => { key := flag.key, matched := true, variant := none }
    | none => { key := flag.key, matched := true, variant := none }

/-- Lexicographic comparison of character lists by code point, the order
Rust String comparison induces (UTF-8 byte order agrees with code-point
order). -/
def charListLt : List Char → List Char → Bool
  | [], [] => false
  | [], _ :: _ => true
  | _ :: _, [] => false
  | c :: cs, d :: ds =>
    if c.val < d.val then true
    else if d.val < c.val then false
    else charListLt cs ds

/-- Lexicographic order on variant names. -/
def nameLt (a b : String) : Bool := charListLt a.data b.data

/-- Insertion of a variant entry into a list kept in increasing
lexicographic order of names (specification-side helper for the
selection rule of spec section 4.3). -/
def insertByName (p : String × Nat) : List (String × Nat) → List (String × Nat)
  | [] => [p]
  | q :: rest =>
    if nameLt p.1 q.1 then p :: q :: rest else q :: insertByName p rest

/-- Insertion sort of variant entries by name (specification-side
helper). -/
def sortByName : List (String × Nat) → List (String × Nat)
  | [] => []
  | p :: rest => insertByName p (sortByName rest)

/-- Walk of the specification (spec section 4.3, step 3): accumulate the
exact weights and return the first name whose cumulative weight strictly
exceeds `n`. -/
def spec_walk : List (String × Nat) → Nat → Nat → Option String
  | [], _, _ => none
  | (name, weight) :: rest, n, acc =>
    if n < acc + weight then some name else spec_walk rest n (acc + weight)

/-- Variant choice as the specification words it: sort the entries
lexicographically by name, then take the first whose cumulative weight
strictly exceeds `n`. -/
def spec_sorted_select (vs : List (String × Nat)) (n : Nat) : Option String :=
  spec_walk (sortByName vs) n 0

/-- A constant stand-in for the digest extractors, used by the concrete
witnesses. -/
def gbW : String → String → Nat := fun _ _ => 42

/-- A flag whose variants map sends both "a" and "b" to weight 1 and
whose HashMap iterator happens to yield "b" first. -/
def flagBA : Flag :=
  { id := 1, key := "k", enabled := true,
    variants := some [("b", 1), ("a", 1)], rollout := none,
    updated_at := "2024-01-01" }

/-- An enabled flag with rollout 50 and no variants. -/
def flagRoll50 : Flag :=
  { id := 2, key := "k", enabled := true, variants := none,
    rollout := some 50, updated_at := "2024-01-01" }

/-- An enabled flag with no rollout and no variants. -/
def flagNoRoll : Flag :=
  { id := 3, key := "k", enabled := true, variants := none,
    rollout := none, updated_at := "2024-01-01" }

/-- A disabled flag with a full rollout and a variant. -/
def flagDisabled : Flag :=
  { id := 4, key := "d", enabled := false,
    variants := some [("a", 1)], rollout := some 100,
    updated_at := "2024-01-01" }

/-- An enabled flag with rollout 0 and no variants. -/
def flagRoll0 : Flag :=
  { id := 5, key := "k", enabled := true, variants := none,
    rollout := some 0, updated_at := "2024-01-01" }

/-- An enabled flag with rollout 100 and no variants. -/
def flagRoll100 : Flag :=
  { id := 6, key := "k", enabled := true, variants := none,
    rollout := some 100, updated_at := "2024-01-01" }

/-- An enabled, ungated flag whose two variants both have weight 0. -/
def flagZeroW : Flag :=
  { id := 7, key := "z", enabled := true,
    variants := some [("a", 0), ("b", 0)], rollout := none,
    updated_at := "2024-01-01" }

/-- C1 (failing input for the claim): with variants {a -> 1, b -> 1}
yielded by the HashMap iterator as [("b",1), ("a",1)], a passing gate
(rollout absent), identifier "u" present, and a variant digest whose
first four little-endian bytes give the value 0 (so n = 0 % 2 = 0), the
code walks the map in its iteration order and returns variant "b", while
the sorted walk demanded by the claim selects "a". -/
theorem c1_unsorted_iteration_bug :
    eval_flag (fun _ _ => 0) (fun _ _ => 0) flagBA (some "u") =
      { key := "k", matched := true, variant := some "b" } ∧
    spec_sorted_select [("b", 1), ("a", 1)] 0 = some "a" := by
  constructor
  · rfl
  · decide

/-- C2: the gate decision: an absent rollout always passes; a present
rollout `p` with a present identifier passes exactly when the first byte
of the gate digest, reduced modulo 100, is strictly below `p`. -/
theorem c2_gate_decision (gb : String → String → Nat) (flag : Flag)
    (user_id : Option String) :
    (flag.rollout = none → gate_of gb flag user_id = true) ∧
    (∀ p uid, flag.rollout = some p → user_id = some uid →
      (gate_of gb flag user_id = true ↔ gb flag.key uid % 100 < p)) := by
  constructor
  · intro h
    simp [gate_of, h]
  · intro p uid hp hu
    subst hu
    simp [gate_of, hp]

/-- Witness for C2 at concrete inputs. -/
theorem c2_gate_decision_witness :
    gate_of gbW flagNoRoll (some "u") = true ∧
    (gate_of gbW flagRoll50 (some "u") = true ↔ 42 % 100 < 50) :=
  ⟨(c2_gate_decision gbW flagNoRoll (some "u")).1 rfl,
   (c2_gate_decision gbW flagRoll50 (some "u")).2 50 "u" rfl rfl⟩

/-- C3: a flag with rollout present, evaluated with no identifier, gives
matched = false and variant = none, whatever enabled, the rollout value
and the variants are. -/
theorem c3_no_identifier_fail_closed (gb vw : String → String → Nat)
    (flag : Flag) (p : Nat) (hp : flag.rollout = some p) :
    eval_flag gb vw flag none =
      { key := flag.key, matched := false, variant := none } := by
  simp [eval_flag, gate_of, hp]

/-- Witness for C3 at a concrete input. -/
theorem c3_no_identifier_fail_closed_witness :
    eval_flag gbW gbW flagRoll50 none =
      { key := "k", matched := false, variant := none } :=
  c3_no_identifier_fail_closed gbW gbW flagRoll50 50 rfl

/-- C4: a disabled flag evaluates to matched = false and variant = none
for every identifier, whatever the rollout and variants are. -/
theorem c4_disabled_dominance (gb vw : String → String → Nat)
    (flag : Flag) (user_id : Option String) (hd : flag.enabled = false) :
    eval_flag gb vw flag user_id =
      { key := flag.key, matched := false, variant := none } := by
  simp [eval_flag, hd]

/-- Witness for C4 at a concrete input. -/
theorem c4_disabled_dominance_witness :
    eval_flag gbW gbW flagDisabled (some "u") =
      { key := "d", matched := false, variant := none } :=
  c4_disabled_dominance gbW gbW flagDisabled (some "u") rfl

/-- C5: boundary gates: rollout 0 with a present identifier never passes
(and forces matched = false even on an enabled flag); rollout 100 with a
present identifier always passes. -/
theorem c5_boundary_gates (gb vw : String → String → Nat) (flag : Flag)
    (uid : String) :
    (flag.rollout = some 0 →
      gate_of gb flag (some uid) = false ∧
      eval_flag gb vw flag (some uid) =
        { key := flag.key, matched := false, variant := none }) ∧
    (flag.rollout = some 100 → gate_of gb flag (some uid) = true) := by
  constructor
  · intro h0
    have hg : gate_of gb flag (some uid) = false := by
      simp [gate_of, h0]
    exact ⟨hg, by simp [eval_flag, hg]⟩
  · intro h100
    simp [gate_of, h100]
    exact Nat.mod_lt _ (by decide)

/-- Witness for C5 at concrete inputs. -/
theorem c5_boundary_gates_witness :
    (gate_of gbW flagRoll0 (some "u") = false ∧
     eval_flag gbW gbW flagRoll0 (some "u") =
       { key := "k", matched := false, variant := none }) ∧
    gate_of gbW flagRoll100 (some "u") = true :=
  ⟨(c5_boundary_gates gbW gbW flagRoll0 "u").1 rfl,
   (c5_boundary_gates gbW gbW flagRoll100 "u").2 rfl⟩

/-- C6: gate monotonicity: for two flags sharing a key, a present
identifier, and rollout percentages p ≤ q, a gate that passes at p also
passes at q. -/
theorem c6_gate_monotone (gb : String → String → Nat) (f g : Flag)
    (uid : String) (p q : Nat) (hkey : f.key = g.key)
    (hp : f.rollout = some p) (hq : g.rollout = some q) (hpq : p ≤ q)
    (h : gate_of gb f (some uid) = true) :
    gate_of gb g (some uid) = true := by
  simp only [gate_of, hp, decide_eq_true_eq] at h
  simp only [gate_of, hq, ← hkey, decide_eq_true_eq]
  exact lt_of_lt_of_le h hpq

/-- Witness for C6 at concrete inputs. -/
theorem c6_gate_monotone_witness :
    gate_of gbW flagRoll100 (some "u") = true :=
  c6_gate_monotone gbW flagRoll50 flagRoll100 "u" 50 100 rfl rfl rfl
    (by decide) (by decide)

/-- C7: an enabled flag whose gate passes and whose variants map is
present with total weight 0 evaluates to matched = true and
variant = none. -/
theorem c7_zero_weight_variants (gb vw : String → String → Nat)
    (flag : Flag) (user_id : Option String) (vs : List (String × Nat))
    (hen : flag.enabled = true) (hg : gate_of gb flag user_id = true)
    (hv : flag.variants = some vs) (hz : (vs.map Prod.snd).sum = 0) :
    eval_flag gb vw flag user_id =
      { key := flag.key, matched := true, variant := none } := by
  simp [eval_flag, hen, hg, hv, hz]

/-- Witness for C7 at a concrete input. -/
theorem c7_zero_weight_variants_witness :
    eval_flag gbW gbW flagZeroW (some "u") =
      { key := "z", matched := true, variant := none } :=
  c7_zero_weight_variants gbW gbW flagZeroW (some "u")
    [("a", 0), ("b", 0)] rfl rfl rfl rfl

/-- C8: determinism: evaluation is a pure function of the flag record
(with its variant iteration order) and the identifier, so identical
inputs produce identical results. -/
theorem c8_determinism (gb vw : String → String → Nat) (f g : Flag)
    (u v : Option String) (hf : f = g) (hu : u = v) :
    eval_flag gb vw f u = eval_flag gb vw g v := by
  subst hf
  subst hu
  rfl

/-- Witness for C8 at a concrete input. -/
theorem c8_determinism_witness :
    eval_flag gbW gbW flagBA (some "u") = eval_flag gbW gbW flagBA (some "u") :=
  c8_determinism gbW gbW flagBA flagBA (some "u") (some "u") rfl rfl

/-- C9: the result always echoes the flag key, and a variant is reported
only together with matched = true. -/
theorem c9_result_shape (gb vw : String → String → Nat) (flag : Flag)
    (user_id : Option String) :
    (eval_flag gb vw flag user_id).key = flag.key ∧
    ((eval_flag gb vw flag user_id).matched = false →
      (eval_flag gb vw flag user_id).variant = none) := by
  simp only [eval_flag]
  split
  · exact ⟨rfl, fun _ => rfl⟩
  · split
    · split
      · exact ⟨rfl, by simp⟩
      · split
        · exact ⟨rfl, by simp⟩
        · exact ⟨rfl, by simp⟩
    · exact ⟨rfl, by simp⟩

/-- Witness for C9 at a concrete input. -/
theorem c9_result_shape_witness :
    (eval_flag gbW gbW flagDisabled none).key = "d" ∧
    (eval_flag gbW gbW flagDisabled none).variant = none :=
  ⟨(c9_result_shape gbW gbW flagDisabled none).1,
   (c9_result_shape gbW gbW flagDisabled none).2 (by decide)⟩

/-- When the loop is entered with `acc ≤ pick`, the running sums never
wrap, and `pick` lies strictly below the final cumulative weight, the
walk returns a name. -/
theorem walk_isSome (vs : List (String × Nat)) (pick : Nat) :
    ∀ acc, acc ≤ pick → acc + (vs.map Prod.snd).sum < UINT32_MOD →
      pick < acc + (vs.map Prod.snd).sum → (walk vs pick acc).isSome = true := by
  induction vs with
  | nil =>
    intro acc hle _ hlt
    simp only [List.map_nil, List.sum_nil, Nat.add_zero] at hlt
    omega
  | cons hd tl ih =>
    intro acc hle hov hlt
    obtain ⟨name, weight⟩ := hd
    simp only [List.map_cons, List.sum_cons] at hov hlt
    have hnw : (acc + weight) % UINT32_MOD = acc + weight :=
      Nat.mod_eq_of_lt (by omega)
    simp only [walk, hnw]
    split
    · rfl
    · next hnot =>
      exact ih (acc + weight) (by omega) (by omega) (by omega)

/-- C10: with an enabled flag, a passing gate, and variants of positive,
non-overflowing total weight, the cumulative walk always returns a
variant: the post-loop fallback is unreachable and matched = true never
comes with variant = none. -/
theorem c10_positive_total_selects (gb vw : String → String → Nat)
    (flag : Flag) (user_id : Option String) (vs : List (String × Nat))
    (hen : flag.enabled = true) (hg : gate_of gb flag user_id = true)
    (hv : flag.variants = some vs) (hpos : 0 < (vs.map Prod.snd).sum)
    (hov : (vs.map Prod.snd).sum < UINT32_MOD) :
    (eval_flag gb vw flag user_id).matched = true ∧
    ((eval_flag gb vw flag user_id).variant).isSome = true := by
  have htot : (vs.map Prod.snd).sum % UINT32_MOD = (vs.map Prod.snd).sum :=
    Nat.mod_eq_of_lt hov
  have hwalk : ∀ pick, pick < (vs.map Prod.snd).sum →
      (walk vs pick 0).isSome = true := by
    intro pick hpick
    exact walk_isSome vs pick 0 (Nat.zero_le _) (by simpa using hov)
      (by simpa using hpick)
  have hne : ¬ (vs.map Prod.snd).sum = 0 := by omega
  simp only [eval_flag, hen, hg, hv, htot, Bool.not_true, Bool.or_self,
    Bool.false_eq_true, if_false, if_neg hne]
  cases user_id with
  | none =>
    have hs := hwalk 0 hpos
    cases hw : walk vs 0 0 with
    | none => rw [hw] at hs; simp at hs
    | some name => simp [hw]
  | some uid =>
    have hs := hwalk (vw flag.key uid % (vs.map Prod.snd).sum)
      (Nat.mod_lt _ hpos)
    cases hw : walk vs (vw flag.key uid % (vs.map Prod.snd).sum) 0 with
    | none => rw [hw] at hs; simp at hs
    | some name => simp [hw]

/-- Witness for C10 at a concrete input. -/
theorem c10_positive_total_selects_witness :
    (eval_flag gbW gbW flagBA (some "u")).matched = true ∧
    ((eval_flag gbW gbW flagBA (some "u")).variant).isSome = true :=
  c10_positive_total_selects gbW gbW flagBA (some "u") [("b", 1), ("a", 1)]
    rfl rfl rfl (by decide) (by decide)

end Toggler
